import Mathlib

/-
Verification development for propagating-hammerjs (src/propagating.js).

The JavaScript source is shallowly embedded as follows:
- DOM elements and native pointer events are identified by natural numbers;
  the DOM tree is a `parent : ElemId → Option ElemId` function
  (`element.parentNode`, `null` modelled as `none`).
- A user handler is identified by a `HandlerId`; its observable behaviour
  during one invocation (whether it calls `event.stopPropagation()` or
  throws) is an environment `beh : HandlerId → HBeh`.
- `element.hammer` back-references are an association list `Doc.bindings`;
  `hammer._handlers` is the association list `Binding.handlers`;
  the set of event types for which the static `propagatedHandler`
  trampoline is attached to the underlying recognizer via `hammer._on`
  is `Binding.registered`.
- `srcEvent._handled` maps (attached lazily to the native event) are the
  association list `Handled`, keyed by native event id.
- The `while (elem && !stopped)` ancestor walk is `walk`, made total with a
  fuel parameter; `ancestorChain` computes the parent chain with the same
  fuel discipline, so `ancestorChain … = some chain` states that the walk
  terminates within the given fuel.
- JavaScript exceptions (the `TypeError` from `null.forEach` in `split`,
  the configuration error thrown by `propagating`) are `Except JsErr`.
-/

set_option autoImplicit false

deriving instance DecidableEq for Except

namespace Propagating

abbrev ElemId := Nat
abbrev HandlerId := Nat
abbrev NativeId := Nat
abbrev EventType := String

/-- The reserved internal bookkeeping event type of hammer.js. -/
def hammerInput : EventType := "hammer.input"

/-- Observable behaviour of one user handler when it is invoked:
it either returns (having called `event.stopPropagation()` or not),
or it throws an exception. -/
inductive HBeh where
  | ret (stops : Bool)
  | throw
deriving DecidableEq

/-- JavaScript errors surfaced by the wrapper: the `TypeError` raised by
`split(events).forEach` when `String.prototype.match` returns `null`, and
the `Error('Only supports preventDefault == true')` thrown at construction. -/
inductive JsErr where
  | typeError
  | configError
deriving DecidableEq

/-- Association list lookup (JavaScript object property read). -/
def lookupA {α β : Type} [DecidableEq α] : List (α × β) → α → Option β
  | [], _ => none
  | p :: rest, k => if p.1 = k then some p.2 else lookupA rest k

/-- Association list update of an existing key (JavaScript property write). -/
def updateA {α β : Type} [DecidableEq α] (l : List (α × β)) (k : α) (v : β) : List (α × β) :=
  l.map (fun p => if p.1 = k then (k, v) else p)

/-- Association list key removal (JavaScript `delete obj[k]`). -/
def eraseA {α β : Type} [DecidableEq α] : List (α × β) → α → List (α × β)
  | [], _ => []
  | p :: rest, k => if p.1 = k then eraseA rest k else p :: eraseA rest k

/-- Remove every occurrence of an element from a list
(`hammer._off(event, propagatedHandler)` deregistering the trampoline). -/
def removeAll {α : Type} [DecidableEq α] : List α → α → List α
  | [], _ => []
  | x :: rest, t => if x = t then removeAll rest t else x :: removeAll rest t

/-- One hammer instance wrapped by `propagating`:
`handlers` is `hammer._handlers`, `registered` is the set of event types for
which the static `propagatedHandler` is currently attached via `hammer._on`. -/
structure Binding where
  handlers : List (EventType × List HandlerId)
  registered : List EventType
deriving DecidableEq

/-- A freshly wrapped hammer instance: `hammer._handlers = {}` and no
trampoline registrations yet. -/
def Binding.empty : Binding := { handlers := [], registered := [] }

/-- The `element.hammer` back-references: which element carries which
wrapped hammer instance. -/
structure Doc where
  bindings : List (ElemId × Binding)
deriving DecidableEq

/-- The two module-level singletons `_firstTarget` and `_processing`. -/
structure GState where
  firstTarget : Option ElemId
  processing : Bool
deriving DecidableEq

/-- A hammer gesture event as far as the wrapper inspects it. -/
structure GEvent where
  type : EventType
  target : ElemId
  srcEvent : NativeId
  isFirst : Bool
  isFinal : Bool
  pointerType : String
deriving DecidableEq

/-- The lazily attached `srcEvent._handled` maps, keyed by native event:
for each native event, the list of gesture event types already handled. -/
abbrev Handled := List (NativeId × List EventType)

/-- Read of `event.srcEvent._handled[event.type]` (with the map treated as
empty when not yet attached). -/
def isHandled (handled : Handled) (src : NativeId) (t : EventType) : Bool :=
  decide (t ∈ (lookupA handled src).getD [])

/-- Write `event.srcEvent._handled[event.type] = true` (attaching the map
first when absent). -/
def markHandled (handled : Handled) (src : NativeId) (t : EventType) : Handled :=
  match lookupA handled src with
  | none => handled ++ [(src, [t])]
  | some ts => updateA handled src (ts ++ [t])

/-- Tokenization performed by `split`: the maximal runs of non-space
characters, i.e. `events.match(/[^ ]+/g)` (which uses exactly the space
character as separator). The accumulator carries the current run reversed. -/
def tokensAux : List Char → List Char → List (List Char)
  | [], acc => if acc.isEmpty then [] else [acc.reverse]
  | c :: rest, acc =>
    if c = ' ' then
      if acc.isEmpty then tokensAux rest [] else acc.reverse :: tokensAux rest []
    else
      tokensAux rest (c :: acc)

/-- The `split` helper: `events.match(/[^ ]+/g)`. `String.prototype.match`
with a global regexp returns `null` when there is no match, modelled as
`none`. -/
def split (events : String) : Option (List String) :=
  match tokensAux events.data [] with
  | [] => none
  | ts => some (ts.map (fun cs => String.mk cs))

/-- One iteration of the `forEach` body of `hammer.on`: create the handler
list and register the trampoline on first use of the type, then push. -/
def on1 (b : Binding) (t : EventType) (h : HandlerId) : Binding :=
  match lookupA b.handlers t with
  | none =>
      { handlers := b.handlers ++ [(t, [h])]
        registered := b.registered ++ [t] }
  | some hs => { b with handlers := updateA b.handlers t (hs ++ [h]) }

/-- One iteration of the `forEach` body of `hammer.off`: filter out the
given handler (all identical occurrences) or clear the list, then either
keep the non-empty list or deregister the trampoline and delete the entry. -/
def off1 (b : Binding) (t : EventType) (h : Option HandlerId) : Binding :=
  match lookupA b.handlers t with
  | none => b
  | some hs =>
    let hs2 : List HandlerId :=
      match h with
      | some hh => hs.filter (fun x => decide (x ≠ hh))
      | none => []
    if hs2.length > 0 then
      { b with handlers := updateA b.handlers t hs2 }
    else
      { handlers := eraseA b.handlers t
        registered := removeAll b.registered t }

/-- `hammer.on(events, handler)`: `split(events).forEach(...)`. When `split`
returns `null`, the `forEach` member access throws a `TypeError`. -/
def onB (b : Binding) (events : String) (h : HandlerId) : Except JsErr Binding :=
  match split events with
  | none => Except.error JsErr.typeError
  | some ts => Except.ok (ts.foldl (fun acc t => on1 acc t h) b)

/-- `hammer.off(events, handler?)`: `split(events).forEach(...)`. When
`split` returns `null`, the `forEach` member access throws a `TypeError`. -/
def offB (b : Binding) (events : String) (h : Option HandlerId) : Except JsErr Binding :=
  match split events with
  | none => Except.error JsErr.typeError
  | some ts => Except.ok (ts.foldl (fun acc t => off1 acc t h) b)

/-- Values the `preventDefault` option can take. -/
inductive PD where
  | tru
  | fls
  | pointer (s : String)
deriving DecidableEq

/-- The options object passed to `propagating` (`preventDefault` may be an
absent property, modelled as `none`). -/
structure POptions where
  preventDefault : Option PD
deriving DecidableEq

/-- The effective `_options` value: `options || { preventDefault: false }`. -/
def effectivePD (opts : Option POptions) : Option PD :=
  match opts with
  | none => some PD.fls
  | some o => o.preventDefault

/-- Attach `element.hammer = hammer` (overwriting any previous value). -/
def setBinding (doc : Doc) (e : ElemId) (b : Binding) : Doc :=
  match lookupA doc.bindings e with
  | none => { bindings := doc.bindings ++ [(e, b)] }
  | some _ => { bindings := updateA doc.bindings e b }

/-- The `propagating(hammer, options)` entry point applied to an instance
attached to element `e`: the `options.preventDefault === false` check is
performed first and throws; only afterwards is the binding attached to the
DOM element with a fresh `_handlers` registry. -/
def propagatingConstruct (doc : Doc) (e : ElemId) (opts : Option POptions) :
    Except JsErr Doc :=
  match opts with
  | some o =>
      if o.preventDefault = some PD.fls then Except.error JsErr.configError
      else Except.ok (setBinding doc e Binding.empty)
  | none => Except.ok (setBinding doc e Binding.empty)

/-- The anonymous `hammer._on('hammer.input', ...)` bookkeeping handler:
applies the default-action policy (returning whether
`event.preventDefault()` was invoked) and maintains the singletons. -/
def hammerInputStep (pd : Option PD) (gs : GState) (ev : GEvent) : GState × Bool :=
  let callPD : Bool :=
    match pd with
    | some PD.tru => true
    | some (PD.pointer s) => decide (s = ev.pointerType)
    | _ => false
  let gs1 := if ev.isFirst then { firstTarget := some ev.target, processing := true } else gs
  let gs2 := if ev.isFinal then { gs1 with processing := false } else gs1
  (gs2, callPD)

/-- The `hammer.emit` wrapper: re-anchor `_firstTarget` to the emitted
event's target when no gesture is in progress, then forward to `_emit`. -/
def emitStep (gs : GState) (ev : GEvent) : GState :=
  if gs.processing then gs else { gs with firstTarget := some ev.target }

/-- `hammer.destroy`: `delete element.hammer` (the registry of the detached
instance is also cleared, making it unreachable either way). -/
def destroyHammer (doc : Doc) (e : ElemId) : Doc :=
  { bindings := eraseA doc.bindings e }

/-- `elem.hammer && elem.hammer._handlers[event.type]`. -/
def handlersAt (doc : Doc) (t : EventType) (e : ElemId) : Option (List HandlerId) :=
  (lookupA doc.bindings e).bind (fun b => lookupA b.handlers t)

/-- The handler list consulted by the walk at one element (empty when the
element has no binding or no list for this type, in which case the inner
`for` loop runs zero times). -/
def handlersAtD (doc : Doc) (t : EventType) (e : ElemId) : List HandlerId :=
  (handlersAt doc t e).getD []

/-- Tag each handler with the element it is registered on, preserving
order; the dispatch log is a list of such pairs. -/
def pmap (e : ElemId) (hs : List HandlerId) : List (ElemId × HandlerId) :=
  hs.map (fun h => (e, h))

/-- The inner `for (var i = 0; i < _handlers.length && !stopped; i++)` loop
at one element. Returns the handlers actually invoked (in order), the stop
flag after the loop, and whether an invocation threw (aborting the loop and
the whole walk, the exception propagating to the caller). -/
def runHandlers (beh : HandlerId → HBeh) : List HandlerId → Bool → List HandlerId × Bool × Bool
  | [], stopped => ([], stopped, false)
  | h :: rest, stopped =>
    if stopped then ([], stopped, false)
    else
      match beh h with
      | HBeh.throw => ([h], stopped, true)
      | HBeh.ret s =>
        let r := runHandlers beh rest (stopped || s)
        (h :: r.1, r.2.1, r.2.2)

/-- The `while (elem && !stopped)` ancestor walk of `propagatedHandler`,
with fuel making the (possibly cyclic) `parentNode` chase total. Returns
the invocation log and whether a handler threw; `none` when the fuel is
exhausted before the loop exits. -/
def walk (parent : ElemId → Option ElemId) (doc : Doc) (beh : HandlerId → HBeh)
    (t : EventType) : Option ElemId → Bool → Nat → Option (List (ElemId × HandlerId) × Bool)
  | none, _, _ => some ([], false)
  | some _, _, 0 => none
  | some _, true, Nat.succ _ => some ([], false)
  | some e, false, Nat.succ fuel =>
    if (runHandlers beh (handlersAtD doc t e) false).2.2 then
      some (pmap e (runHandlers beh (handlersAtD doc t e) false).1, true)
    else
      match walk parent doc beh t (parent e) (runHandlers beh (handlersAtD doc t e) false).2.1 fuel with
      | none => none
      | some l2 => some (pmap e (runHandlers beh (handlersAtD doc t e) false).1 ++ l2.1, l2.2)

/-- The parent chain from a starting element up to the root, with the same
fuel discipline as `walk`: `some chain` certifies that the chase terminates
within the given fuel. -/
def ancestorChain (parent : ElemId → Option ElemId) : Option ElemId → Nat → Option (List ElemId)
  | none, _ => some []
  | some _, 0 => none
  | some e, Nat.succ fuel => (ancestorChain parent (parent e) fuel).map (fun c => e :: c)

/-- Outcome of one invocation of the static `propagatedHandler` trampoline:
the updated `_handled` store, the value written to `event.firstTarget`
(`none` when the dedup guard returned before reaching that line), the
invocation log of the walk, and whether a handler threw. -/
structure PHResult where
  handled : Handled
  attachedFirstTarget : Option (Option ElemId)
  log : List (ElemId × HandlerId)
  threw : Bool
deriving DecidableEq

/-- The static `propagatedHandler` (src/propagating.js lines 180-218):
dedup guard on `srcEvent._handled` for non-internal types (marking before
walking), then `stopPropagation` flag and `firstTarget` attachment, then
the ancestor walk starting at `_firstTarget`. -/
def propagatedHandler (parent : ElemId → Option ElemId) (doc : Doc) (beh : HandlerId → HBeh)
    (gs : GState) (handled : Handled) (ev : GEvent) (fuel : Nat) : Option PHResult :=
  if ev.type ≠ hammerInput ∧ isHandled handled ev.srcEvent ev.type = true then
    some { handled := handled, attachedFirstTarget := none, log := [], threw := false }
  else
    let handled1 := if ev.type ≠ hammerInput then markHandled handled ev.srcEvent ev.type else handled
    match walk parent doc beh ev.type gs.firstTarget false fuel with
    | none => none
    | some l => some { handled := handled1, attachedFirstTarget := some gs.firstTarget,
                       log := l.1, threw := l.2 }

/-- The operations that touch the singleton gesture-origin state: an
incoming `hammer.input` bookkeeping event, or a call to the `emit` wrapper. -/
inductive GOp where
  | input (ev : GEvent)
  | emitOp (ev : GEvent)

/-- Effect of one gesture-origin operation on the singletons. -/
def gstep (pd : Option PD) (gs : GState) (op : GOp) : GState :=
  match op with
  | GOp.input ev => (hammerInputStep pd gs ev).1
  | GOp.emitOp ev => emitStep gs ev

/-- The flattening of the handler registries along an ancestor chain, in
chain order and, within one element, registration order. This is the
reference delivery order of the specification. -/
def chainHandlers (doc : Doc) (t : EventType) : List ElemId → List (ElemId × HandlerId)
  | [] => []
  | e :: rest => pmap e (handlersAtD doc t e) ++ chainHandlers doc t rest

/-- Cut a delivery list at the first handler that does not return normally
without stopping: that handler is still invoked, nothing after it is. -/
def cutAtStop (beh : HandlerId → HBeh) : List (ElemId × HandlerId) → List (ElemId × HandlerId)
  | [] => []
  | p :: rest =>
    match beh p.2 with
    | HBeh.ret false => p :: cutAtStop beh rest
    | _ => [p]

/-- Whether the delivery list reaches a handler that calls
`stopPropagation()` (before any throwing handler). -/
def cutStopped (beh : HandlerId → HBeh) : List (ElemId × HandlerId) → Bool
  | [] => false
  | p :: rest =>
    match beh p.2 with
    | HBeh.ret false => cutStopped beh rest
    | HBeh.ret true => true
    | HBeh.throw => false

/-- Whether the delivery list reaches a throwing handler (before any
handler that calls `stopPropagation()`). -/
def cutThrew (beh : HandlerId → HBeh) : List (ElemId × HandlerId) → Bool
  | [] => false
  | p :: rest =>
    match beh p.2 with
    | HBeh.ret false => cutThrew beh rest
    | HBeh.ret true => false
    | HBeh.throw => true

/-- Handler-list (per element) version of `cutAtStop`. -/
def cutAtStopH (beh : HandlerId → HBeh) : List HandlerId → List HandlerId
  | [] => []
  | h :: rest =>
    match beh h with
    | HBeh.ret false => h :: cutAtStopH beh rest
    | _ => [h]

/-- Handler-list (per element) version of `cutStopped`. -/
def cutStoppedH (beh : HandlerId → HBeh) : List HandlerId → Bool
  | [] => false
  | h :: rest =>
    match beh h with
    | HBeh.ret false => cutStoppedH beh rest
    | HBeh.ret true => true
    | HBeh.throw => false

/-- Handler-list (per element) version of `cutThrew`. -/
def cutThrewH (beh : HandlerId → HBeh) : List HandlerId → Bool
  | [] => false
  | h :: rest =>
    match beh h with
    | HBeh.ret false => cutThrewH beh rest
    | HBeh.ret true => false
    | HBeh.throw => true

section AssocLemmas

variable {α β : Type} [DecidableEq α]

theorem lookupA_append_of_none (l1 l2 : List (α × β)) (k : α) (h : lookupA l1 k = none) :
    lookupA (l1 ++ l2) k = lookupA l2 k := by
  induction l1 with
  | nil => simp
  | cons p rest ih =>
    rw [lookupA] at h
    by_cases hk : p.1 = k
    · rw [if_pos hk] at h; exact absurd h (by simp)
    · rw [if_neg hk] at h
      simpa [lookupA, hk] using ih h

theorem lookupA_updateA (l : List (α × β)) (k : α) (v : β) :
    lookupA (updateA l k v) k = (lookupA l k).map (fun _ => v) := by
  induction l with
  | nil => simp [lookupA, updateA]
  | cons p rest ih =>
    by_cases hk : p.1 = k
    · simp [lookupA, updateA, hk]
    · simp only [updateA, List.map] at ih ⊢
      rw [if_neg hk, lookupA, if_neg hk, lookupA, if_neg hk, ih]

theorem lookupA_eraseA (l : List (α × β)) (k : α) :
    lookupA (eraseA l k) k = none := by
  induction l with
  | nil => simp [lookupA, eraseA]
  | cons p rest ih =>
    by_cases hk : p.1 = k
    · simpa [eraseA, hk] using ih
    · simpa [eraseA, hk, lookupA] using ih

theorem lookupA_eraseA_ne (l : List (α × β)) (k k2 : α) (h : k2 ≠ k) :
    lookupA (eraseA l k) k2 = lookupA l k2 := by
  induction l with
  | nil => simp [eraseA]
  | cons p rest ih =>
    rw [eraseA]
    by_cases hk : p.1 = k
    · have hne : ¬ p.1 = k2 := by
        intro hc
        rw [hc] at hk
        exact h hk
      rw [if_pos hk, ih, lookupA, if_neg hne]
    · rw [if_neg hk, lookupA, lookupA]
      by_cases hk2 : p.1 = k2
      · rw [if_pos hk2, if_pos hk2]
      · rw [if_neg hk2, if_neg hk2, ih]

end AssocLemmas

theorem not_mem_removeAll {α : Type} [DecidableEq α] (l : List α) (t : α) :
    t ∉ removeAll l t := by
  induction l with
  | nil => simp [removeAll]
  | cons x rest ih =>
    by_cases hx : x = t
    · simpa [removeAll, hx] using ih
    · simp only [removeAll, if_neg hx, List.mem_cons]
      rintro (h | h)
      · exact hx h.symm
      · exact ih h

theorem isHandled_markHandled (handled : Handled) (src : NativeId) (t : EventType) :
    isHandled (markHandled handled src t) src t = true := by
  rw [markHandled]
  cases hl : lookupA handled src with
  | none =>
    rw [isHandled, lookupA_append_of_none _ _ _ hl]
    simp [lookupA]
  | some ts =>
    rw [isHandled, lookupA_updateA, hl]
    simp

theorem runHandlers_of_stopped (beh : HandlerId → HBeh) (hs : List HandlerId) :
    runHandlers beh hs true = ([], true, false) := by
  cases hs <;> simp [runHandlers]

theorem runHandlers_eq (beh : HandlerId → HBeh) (hs : List HandlerId) :
    runHandlers beh hs false = (cutAtStopH beh hs, cutStoppedH beh hs, cutThrewH beh hs) := by
  induction hs with
  | nil => simp [runHandlers, cutAtStopH, cutStoppedH, cutThrewH]
  | cons h rest ih =>
    cases hb : beh h with
    | throw => simp [runHandlers, cutAtStopH, cutStoppedH, cutThrewH, hb]
    | ret s =>
      cases s with
      | false => simp [runHandlers, cutAtStopH, cutStoppedH, cutThrewH, hb, ih]
      | true =>
        simp [runHandlers, cutAtStopH, cutStoppedH, cutThrewH, hb,
              runHandlers_of_stopped]

theorem runHandlers_subset (beh : HandlerId → HBeh) :
    ∀ (hs : List HandlerId) (st : Bool) (h : HandlerId),
      h ∈ (runHandlers beh hs st).1 → h ∈ hs := by
  intro hs
  induction hs with
  | nil => intro st h hh; simp [runHandlers] at hh
  | cons hh2 rest ih =>
    intro st h hh
    rw [runHandlers] at hh
    by_cases hst : st
    · subst hst; simp at hh
    · rw [if_neg hst] at hh
      cases hb : beh hh2 with
      | throw => rw [hb] at hh; simp at hh; simp [hh]
      | ret s =>
        rw [hb] at hh
        simp only [List.mem_cons] at hh
        rcases hh with hh | hh
        · simp [hh]
        · exact List.mem_cons_of_mem _ (ih _ h hh)

theorem cutAtStop_pmap (beh : HandlerId → HBeh) (e : ElemId) (hs : List HandlerId) :
    cutAtStop beh (pmap e hs) = pmap e (cutAtStopH beh hs) := by
  induction hs with
  | nil => simp [pmap, cutAtStop, cutAtStopH]
  | cons h rest ih =>
    cases hb : beh h with
    | throw => simp [pmap, cutAtStop, cutAtStopH, hb]
    | ret s =>
      cases s with
      | false => simpa [pmap, cutAtStop, cutAtStopH, hb] using ih
      | true => simp [pmap, cutAtStop, cutAtStopH, hb]

theorem cutStopped_pmap (beh : HandlerId → HBeh) (e : ElemId) (hs : List HandlerId) :
    cutStopped beh (pmap e hs) = cutStoppedH beh hs := by
  induction hs with
  | nil => simp [pmap, cutStopped, cutStoppedH]
  | cons h rest ih =>
    cases hb : beh h with
    | throw => simp [pmap, cutStopped, cutStoppedH, hb]
    | ret s =>
      cases s with
      | false => simpa [pmap, cutStopped, cutStoppedH, hb] using ih
      | true => simp [pmap, cutStopped, cutStoppedH, hb]

theorem cutThrew_pmap (beh : HandlerId → HBeh) (e : ElemId) (hs : List HandlerId) :
    cutThrew beh (pmap e hs) = cutThrewH beh hs := by
  induction hs with
  | nil => simp [pmap, cutThrew, cutThrewH]
  | cons h rest ih =>
    cases hb : beh h with
    | throw => simp [pmap, cutThrew, cutThrewH, hb]
    | ret s =>
      cases s with
      | false => simpa [pmap, cutThrew, cutThrewH, hb] using ih
      | true => simp [pmap, cutThrew, cutThrewH, hb]

theorem cutAtStopH_clean (beh : HandlerId → HBeh) (hs : List HandlerId)
    (hst : cutStoppedH beh hs = false) (hth : cutThrewH beh hs = false) :
    cutAtStopH beh hs = hs := by
  induction hs with
  | nil => simp [cutAtStopH]
  | cons h rest ih =>
    cases hb : beh h with
    | throw => rw [cutThrewH, hb] at hth; exact absurd hth (by simp)
    | ret s =>
      cases s with
      | false =>
        rw [cutStoppedH, hb] at hst
        rw [cutThrewH, hb] at hth
        simp [cutAtStopH, hb, ih hst hth]
      | true => rw [cutStoppedH, hb] at hst; exact absurd hst (by simp)

theorem cut_append_clean (beh : HandlerId → HBeh) (l1 l2 : List (ElemId × HandlerId))
    (hst : cutStopped beh l1 = false) (hth : cutThrew beh l1 = false) :
    cutAtStop beh (l1 ++ l2) = l1 ++ cutAtStop beh l2 ∧
      cutStopped beh (l1 ++ l2) = cutStopped beh l2 ∧
      cutThrew beh (l1 ++ l2) = cutThrew beh l2 := by
  induction l1 with
  | nil => simp
  | cons p rest ih =>
    cases hb : beh p.2 with
    | throw => rw [cutThrew, hb] at hth; exact absurd hth (by simp)
    | ret s =>
      cases s with
      | false =>
        rw [cutStopped, hb] at hst
        rw [cutThrew, hb] at hth
        obtain ⟨h1, h2, h3⟩ := ih hst hth
        refine ⟨?_, ?_, ?_⟩
        · rw [List.cons_append, cutAtStop, hb, h1, List.cons_append]
        · rw [List.cons_append, cutStopped, hb, h2]
        · rw [List.cons_append, cutThrew, hb, h3]
      | true => rw [cutStopped, hb] at hst; exact absurd hst (by simp)

theorem cut_append_stopped (beh : HandlerId → HBeh) (l1 l2 : List (ElemId × HandlerId))
    (hst : cutStopped beh l1 = true) :
    cutAtStop beh (l1 ++ l2) = cutAtStop beh l1 ∧
      cutStopped beh (l1 ++ l2) = true ∧
      cutThrew beh (l1 ++ l2) = cutThrew beh l1 := by
  induction l1 with
  | nil => simp [cutStopped] at hst
  | cons p rest ih =>
    cases hb : beh p.2 with
    | throw => rw [cutStopped, hb] at hst; exact absurd hst (by simp)
    | ret s =>
      cases s with
      | false =>
        rw [cutStopped, hb] at hst
        obtain ⟨h1, h2, h3⟩ := ih hst
        refine ⟨?_, ?_, ?_⟩
        · rw [List.cons_append, cutAtStop, hb, h1, cutAtStop, hb]
        · rw [List.cons_append, cutStopped, hb, h2]
        · rw [List.cons_append, cutThrew, hb, h3, cutThrew, hb]
      | true =>
        refine ⟨?_, ?_, ?_⟩
        · rw [List.cons_append, cutAtStop, hb, cutAtStop, hb]
        · rw [List.cons_append, cutStopped, hb]
        · rw [List.cons_append, cutThrew, hb, cutThrew, hb]

theorem cut_append_threw (beh : HandlerId → HBeh) (l1 l2 : List (ElemId × HandlerId))
    (hth : cutThrew beh l1 = true) :
    cutAtStop beh (l1 ++ l2) = cutAtStop beh l1 ∧
      cutStopped beh (l1 ++ l2) = cutStopped beh l1 ∧
      cutThrew beh (l1 ++ l2) = true := by
  induction l1 with
  | nil => simp [cutThrew] at hth
  | cons p rest ih =>
    cases hb : beh p.2 with
    | throw =>
      refine ⟨?_, ?_, ?_⟩
      · rw [List.cons_append, cutAtStop, hb, cutAtStop, hb]
      · rw [List.cons_append, cutStopped, hb, cutStopped, hb]
      · rw [List.cons_append, cutThrew, hb]
    | ret s =>
      cases s with
      | false =>
        rw [cutThrew, hb] at hth
        obtain ⟨h1, h2, h3⟩ := ih hth
        refine ⟨?_, ?_, ?_⟩
        · rw [List.cons_append, cutAtStop, hb, h1, cutAtStop, hb]
        · rw [List.cons_append, cutStopped, hb, h2, cutStopped, hb]
        · rw [List.cons_append, cutThrew, hb, h3]
      | true => rw [cutThrew, hb] at hth; exact absurd hth (by simp)

theorem cutThrew_of_nothrow (beh : HandlerId → HBeh)
    (hnothrow : ∀ h : HandlerId, beh h ≠ HBeh.throw) :
    ∀ l : List (ElemId × HandlerId), cutThrew beh l = false := by
  intro l
  induction l with
  | nil => rfl
  | cons p rest ih =>
    cases hb : beh p.2 with
    | throw => exact absurd hb (hnothrow p.2)
    | ret s => cases s <;> simp [cutThrew, hb, ih]

theorem walk_of_stopped (parent : ElemId → Option ElemId) (doc : Doc) (beh : HandlerId → HBeh)
    (t : EventType) (start : Option ElemId) (fuel : Nat) (chain : List ElemId)
    (hc : ancestorChain parent start fuel = some chain) :
    walk parent doc beh t start true fuel = some ([], false) := by
  cases start with
  | none => rw [walk]
  | some e =>
    cases fuel with
    | zero => rw [ancestorChain] at hc; exact absurd hc (by simp)
    | succ n => rw [walk]

theorem walk_eq_cutAtStop (parent : ElemId → Option ElemId) (doc : Doc)
    (beh : HandlerId → HBeh) (t : EventType) :
    ∀ (fuel : Nat) (start : Option ElemId) (chain : List ElemId),
      ancestorChain parent start fuel = some chain →
      walk parent doc beh t start false fuel =
        some (cutAtStop beh (chainHandlers doc t chain),
              cutThrew beh (chainHandlers doc t chain)) := by
  intro fuel
  induction fuel with
  | zero =>
    intro start chain hc
    cases start with
    | none =>
      rw [ancestorChain] at hc
      have hchain : chain = [] := by simpa using hc.symm
      subst hchain
      rw [walk, chainHandlers, cutAtStop, cutThrew]
    | some e => rw [ancestorChain] at hc; exact absurd hc (by simp)
  | succ n ih =>
    intro start chain hc
    cases start with
    | none =>
      rw [ancestorChain] at hc
      have hchain : chain = [] := by simpa using hc.symm
      subst hchain
      rw [walk, chainHandlers, cutAtStop, cutThrew]
    | some e =>
      rw [ancestorChain] at hc
      cases hrec : ancestorChain parent (parent e) n with
      | none => rw [hrec] at hc; exact absurd hc (by simp)
      | some c2 =>
        rw [hrec] at hc
        have hchain : chain = e :: c2 := by simpa using hc.symm
        subst hchain
        rw [walk, runHandlers_eq, chainHandlers]
        dsimp only
        by_cases hth : cutThrewH beh (handlersAtD doc t e) = true
        · obtain ⟨h1, _h2, h3⟩ :=
            cut_append_threw beh (pmap e (handlersAtD doc t e)) (chainHandlers doc t c2)
              (by rw [cutThrew_pmap]; exact hth)
          rw [if_pos hth, h1, h3, cutAtStop_pmap]
        · have hth2 : cutThrewH beh (handlersAtD doc t e) = false := by
            cases hv : cutThrewH beh (handlersAtD doc t e)
            · rfl
            · exact absurd hv hth
          rw [if_neg hth]
          by_cases hst : cutStoppedH beh (handlersAtD doc t e) = true
          · rw [hst, walk_of_stopped parent doc beh t (parent e) n c2 hrec]
            obtain ⟨h1, _h2, h3⟩ :=
              cut_append_stopped beh (pmap e (handlersAtD doc t e)) (chainHandlers doc t c2)
                (by rw [cutStopped_pmap]; exact hst)
            dsimp only
            rw [List.append_nil, h1, h3, cutAtStop_pmap, cutThrew_pmap, hth2]
          · have hst2 : cutStoppedH beh (handlersAtD doc t e) = false := by
              cases hv : cutStoppedH beh (handlersAtD doc t e)
              · rfl
              · exact absurd hv hst
            rw [hst2, ih (parent e) c2 hrec]
            obtain ⟨h1, _h2, h3⟩ :=
              cut_append_clean beh (pmap e (handlersAtD doc t e)) (chainHandlers doc t c2)
                (by rw [cutStopped_pmap]; exact hst2)
                (by rw [cutThrew_pmap]; exact hth2)
            dsimp only
            rw [h1, h3, cutAtStopH_clean beh _ hst2 hth2]

theorem mem_handlersAtD (doc : Doc) (t : EventType) (e : ElemId) (h : HandlerId)
    (hm : h ∈ handlersAtD doc t e) :
    ∃ b hs, lookupA doc.bindings e = some b ∧ lookupA b.handlers t = some hs ∧ h ∈ hs := by
  rw [handlersAtD] at hm
  cases hb : handlersAt doc t e with
  | none => rw [hb] at hm; simp at hm
  | some hs =>
    rw [hb] at hm
    rw [handlersAt] at hb
    cases hbb : lookupA doc.bindings e with
    | none => rw [hbb] at hb; exact absurd hb (by simp)
    | some b =>
      rw [hbb] at hb
      exact ⟨b, hs, rfl, by simpa using hb, by simpa using hm⟩

theorem walk_mem (parent : ElemId → Option ElemId) (doc : Doc) (beh : HandlerId → HBeh)
    (t : EventType) :
    ∀ (fuel : Nat) (start : Option ElemId) (stopped : Bool)
      (res : List (ElemId × HandlerId) × Bool) (p : ElemId × HandlerId),
      walk parent doc beh t start stopped fuel = some res → p ∈ res.1 →
      ∃ b hs, lookupA doc.bindings p.1 = some b ∧ lookupA b.handlers t = some hs ∧ p.2 ∈ hs := by
  intro fuel
  induction fuel with
  | zero =>
    intro start stopped res p hw hp
    cases start with
    | none =>
      rw [walk] at hw
      have : res = ([], false) := by simpa using hw.symm
      subst this
      simp at hp
    | some e => rw [walk] at hw; exact absurd hw (by simp)
  | succ n ih =>
    intro start stopped res p hw hp
    cases start with
    | none =>
      rw [walk] at hw
      have : res = ([], false) := by simpa using hw.symm
      subst this
      simp at hp
    | some e =>
      cases stopped with
      | true =>
        rw [walk] at hw
        have : res = ([], false) := by simpa using hw.symm
        subst this
        simp at hp
      | false =>
        rw [walk] at hw
        by_cases hth : (runHandlers beh (handlersAtD doc t e) false).2.2 = true
        · rw [if_pos hth] at hw
          have hres : res = (pmap e (runHandlers beh (handlersAtD doc t e) false).1, true) := by
            simpa using hw.symm
          subst hres
          simp only [pmap, List.mem_map] at hp
          obtain ⟨h, hh, hph⟩ := hp
          have hmem : h ∈ handlersAtD doc t e := runHandlers_subset beh _ false h hh
          obtain ⟨b, hs, hb, hhs, hhm⟩ := mem_handlersAtD doc t e h hmem
          subst hph
          exact ⟨b, hs, hb, hhs, hhm⟩
        · rw [if_neg hth] at hw
          cases hw2 : walk parent doc beh t (parent e)
              (runHandlers beh (handlersAtD doc t e) false).2.1 n with
          | none => rw [hw2] at hw; exact absurd hw (by simp)
          | some l2 =>
            rw [hw2] at hw
            have hres : res = (pmap e (runHandlers beh (handlersAtD doc t e) false).1 ++ l2.1, l2.2) := by
              simpa using hw.symm
            subst hres
            simp only [List.mem_append] at hp
            rcases hp with hp | hp
            · simp only [pmap, List.mem_map] at hp
              obtain ⟨h, hh, hph⟩ := hp
              have hmem : h ∈ handlersAtD doc t e := runHandlers_subset beh _ false h hh
              obtain ⟨b, hs, hb, hhs, hhm⟩ := mem_handlersAtD doc t e h hmem
              subst hph
              exact ⟨b, hs, hb, hhs, hhm⟩
            · exact ih (parent e) _ l2 p hw2 hp

theorem propagated_already_handled (parent : ElemId → Option ElemId) (doc : Doc)
    (beh : HandlerId → HBeh) (gs : GState) (handled : Handled) (ev : GEvent) (fuel : Nat)
    (hne : ev.type ≠ hammerInput) (hh : isHandled handled ev.srcEvent ev.type = true) :
    propagatedHandler parent doc beh gs handled ev fuel =
      some { handled := handled, attachedFirstTarget := none, log := [], threw := false } := by
  rw [propagatedHandler, if_pos ⟨hne, hh⟩]

theorem propagated_marks (parent : ElemId → Option ElemId) (doc : Doc)
    (beh : HandlerId → HBeh) (gs : GState) (handled : Handled) (ev : GEvent) (fuel : Nat)
    (r : PHResult) (hne : ev.type ≠ hammerInput)
    (h : propagatedHandler parent doc beh gs handled ev fuel = some r) :
    isHandled r.handled ev.srcEvent ev.type = true ∧
      (isHandled handled ev.srcEvent ev.type = false →
        r.handled = markHandled handled ev.srcEvent ev.type) := by
  rw [propagatedHandler] at h
  by_cases hg : isHandled handled ev.srcEvent ev.type = true
  · rw [if_pos ⟨hne, hg⟩] at h
    have hr : r = { handled := handled, attachedFirstTarget := none, log := [], threw := false } := by
      simpa using h.symm
    subst hr
    exact ⟨hg, fun hf => absurd hg (by rw [hf]; simp)⟩
  · rw [if_neg (fun hc => hg hc.2)] at h
    dsimp only at h
    rw [if_pos hne] at h
    cases hw : walk parent doc beh ev.type gs.firstTarget false fuel with
    | none => rw [hw] at h; exact absurd h (by simp)
    | some l =>
      rw [hw] at h
      have hr : r = { handled := markHandled handled ev.srcEvent ev.type,
                      attachedFirstTarget := some gs.firstTarget,
                      log := l.1, threw := l.2 } := by
        simpa using h.symm
      subst hr
      exact ⟨isHandled_markHandled _ _ _, fun _ => rfl⟩

theorem propagated_mem (parent : ElemId → Option ElemId) (doc : Doc) (beh : HandlerId → HBeh)
    (gs : GState) (handled : Handled) (ev : GEvent) (fuel : Nat) (r : PHResult)
    (p : ElemId × HandlerId)
    (h : propagatedHandler parent doc beh gs handled ev fuel = some r) (hp : p ∈ r.log) :
    ∃ b hs, lookupA doc.bindings p.1 = some b ∧ lookupA b.handlers ev.type = some hs ∧ p.2 ∈ hs := by
  rw [propagatedHandler] at h
  by_cases hg : ev.type ≠ hammerInput ∧ isHandled handled ev.srcEvent ev.type = true
  · rw [if_pos hg] at h
    have hr : r = { handled := handled, attachedFirstTarget := none, log := [], threw := false } := by
      simpa using h.symm
    subst hr
    simp at hp
  · rw [if_neg hg] at h
    dsimp only at h
    cases hw : walk parent doc beh ev.type gs.firstTarget false fuel with
    | none => rw [hw] at h; exact absurd h (by simp)
    | some l =>
      rw [hw] at h
      have hr : r = { handled := if ev.type ≠ hammerInput
                        then markHandled handled ev.srcEvent ev.type else handled,
                      attachedFirstTarget := some gs.firstTarget,
                      log := l.1, threw := l.2 } := by
        simpa using h.symm
      have hp2 : p ∈ l.1 := by rw [hr] at hp; exact hp
      exact walk_mem parent doc beh ev.type fuel gs.firstTarget false l p hw hp2

theorem propagated_attaches (parent : ElemId → Option ElemId) (doc : Doc)
    (beh : HandlerId → HBeh) (gs : GState) (handled : Handled) (ev : GEvent) (fuel : Nat)
    (r : PHResult) (h : propagatedHandler parent doc beh gs handled ev fuel = some r) :
    r.attachedFirstTarget = none ∨ r.attachedFirstTarget = some gs.firstTarget := by
  rw [propagatedHandler] at h
  by_cases hg : ev.type ≠ hammerInput ∧ isHandled handled ev.srcEvent ev.type = true
  · rw [if_pos hg] at h
    have hr : r = { handled := handled, attachedFirstTarget := none, log := [], threw := false } := by
      simpa using h.symm
    subst hr
    exact Or.inl rfl
  · rw [if_neg hg] at h
    dsimp only at h
    cases hw : walk parent doc beh ev.type gs.firstTarget false fuel with
    | none => rw [hw] at h; exact absurd h (by simp)
    | some l =>
      rw [hw] at h
      have hr : r = { handled := if ev.type ≠ hammerInput
                        then markHandled handled ev.srcEvent ev.type else handled,
                      attachedFirstTarget := some gs.firstTarget,
                      log := l.1, threw := l.2 } := by
        simpa using h.symm
      rw [hr]
      exact Or.inr rfl

theorem gstep_fold_stable (pd : Option PD) (t : ElemId) :
    ∀ (ops : List GOp) (gs : GState), gs.processing = true → gs.firstTarget = some t →
      (∀ ev : GEvent, GOp.input ev ∈ ops → ev.isFirst = false ∧ ev.isFinal = false) →
      (List.foldl (gstep pd) gs ops).processing = true ∧
        (List.foldl (gstep pd) gs ops).firstTarget = some t := by
  intro ops
  induction ops with
  | nil => intro gs h1 h2 _; exact ⟨h1, h2⟩
  | cons op rest ih =>
    intro gs h1 h2 hops
    rw [List.foldl_cons]
    have hstep : (gstep pd gs op).processing = true ∧ (gstep pd gs op).firstTarget = some t := by
      cases op with
      | input ev =>
        obtain ⟨hf, hfin⟩ := hops ev (List.mem_cons_self _ _)
        simp [gstep, hammerInputStep, hf, hfin, h1, h2]
      | emitOp ev => simp [gstep, emitStep, h1, h2]
    exact ih (gstep pd gs op) hstep.1 hstep.2 (fun ev hm => hops ev (List.mem_cons_of_mem _ hm))

/-- C1: dispatching a gesture event (non-internal type, not yet handled for
its native event) whose origin `_firstTarget` has ancestor chain `chain`
invokes exactly the handlers registered along that chain in strict
deepest-to-shallowest order and, within one element, in registration order,
cut at the first handler that calls `stopPropagation()` (that handler still
runs; no later handler on the same or any more-ancestral element does). -/
theorem claimC1_dispatch_ancestor_order (parent : ElemId → Option ElemId) (doc : Doc)
    (beh : HandlerId → HBeh) (gs : GState) (handled : Handled) (ev : GEvent) (fuel : Nat)
    (chain : List ElemId)
    (hne : ev.type ≠ hammerInput)
    (hfresh : isHandled handled ev.srcEvent ev.type = false)
    (hchain : ancestorChain parent gs.firstTarget fuel = some chain)
    (hnothrow : ∀ h : HandlerId, beh h ≠ HBeh.throw) :
    propagatedHandler parent doc beh gs handled ev fuel =
      some { handled := markHandled handled ev.srcEvent ev.type,
             attachedFirstTarget := some gs.firstTarget,
             log := cutAtStop beh (chainHandlers doc ev.type chain),
             threw := false } := by
  have hguard : ¬ (ev.type ≠ hammerInput ∧ isHandled handled ev.srcEvent ev.type = true) := by
    intro hc
    rw [hfresh] at hc
    exact absurd hc.2 (by simp)
  rw [propagatedHandler, if_neg hguard]
  dsimp only
  rw [if_pos hne, walk_eq_cutAtStop parent doc beh ev.type fuel gs.firstTarget chain hchain]
  dsimp only
  rw [cutThrew_of_nothrow beh hnothrow]

/-- C2: the dedup guard gives at most one propagation pass per (native
event, non-internal type) pair: a successful trampoline invocation leaves
the pair marked in the `_handled` store (marking it itself when it was
fresh), and any later trampoline invocation for the same pair — notably the
one arriving through a second Binding registered for the same gesture type —
returns immediately, invoking no handler and changing nothing. -/
theorem claimC2_dedup_single_pass (p1 p2 : ElemId → Option ElemId) (d1 d2 : Doc)
    (b1 b2 : HandlerId → HBeh) (g1 g2 : GState) (handled : Handled) (ev ev2 : GEvent)
    (fuel fuel2 : Nat) (r : PHResult)
    (hne : ev.type ≠ hammerInput)
    (h1 : propagatedHandler p1 d1 b1 g1 handled ev fuel = some r)
    (hsrc : ev2.srcEvent = ev.srcEvent) (hty : ev2.type = ev.type) :
    (isHandled handled ev.srcEvent ev.type = false →
      r.handled = markHandled handled ev.srcEvent ev.type) ∧
    propagatedHandler p2 d2 b2 g2 r.handled ev2 fuel2 =
      some { handled := r.handled, attachedFirstTarget := none, log := [], threw := false } := by
  obtain ⟨hmark, hfresh⟩ := propagated_marks p1 d1 b1 g1 handled ev fuel r hne h1
  refine ⟨hfresh, ?_⟩
  apply propagated_already_handled
  · rw [hty]; exact hne
  · rw [hsrc, hty]; exact hmark

/-- C3: after the first phase of a gesture (a `hammer.input` event with
`isFirst`) anchors `_firstTarget` at its target, any sequence of mid-gesture
bookkeeping events (neither first nor final, possibly with different
targets) and `emit` calls leaves `_firstTarget` at that element with the
gesture still in progress, so every dispatch that attaches `firstTarget`
attaches exactly that element; and `emit` re-anchors `_firstTarget` to the
emitted event's target exactly when no gesture is in progress. -/
theorem claimC3_firstTarget_stable (pd : Option PD) (gs0 : GState) (ev0 : GEvent)
    (ops : List GOp)
    (hf : ev0.isFirst = true) (hnf : ev0.isFinal = false)
    (hops : ∀ ev : GEvent, GOp.input ev ∈ ops → ev.isFirst = false ∧ ev.isFinal = false) :
    (List.foldl (gstep pd) (gstep pd gs0 (GOp.input ev0)) ops).firstTarget = some ev0.target ∧
    (List.foldl (gstep pd) (gstep pd gs0 (GOp.input ev0)) ops).processing = true ∧
    (∀ (parent : ElemId → Option ElemId) (doc : Doc) (beh : HandlerId → HBeh)
        (handled : Handled) (ev : GEvent) (fuel : Nat) (r : PHResult),
      propagatedHandler parent doc beh (List.foldl (gstep pd) (gstep pd gs0 (GOp.input ev0)) ops)
          handled ev fuel = some r →
      r.attachedFirstTarget = none ∨ r.attachedFirstTarget = some (some ev0.target)) ∧
    (∀ (gs : GState) (ev : GEvent), gs.processing = false →
      (emitStep gs ev).firstTarget = some ev.target) := by
  have hinit : (gstep pd gs0 (GOp.input ev0)).processing = true ∧
      (gstep pd gs0 (GOp.input ev0)).firstTarget = some ev0.target := by
    simp [gstep, hammerInputStep, hf, hnf]
  obtain ⟨hp, hft⟩ := gstep_fold_stable pd ev0.target ops _ hinit.1 hinit.2 hops
  refine ⟨hft, hp, ?_, ?_⟩
  · intro parent doc beh handled ev fuel r h
    have hat := propagated_attaches parent doc beh _ handled ev fuel r h
    rw [hft] at hat
    exact hat
  · intro gs ev hgs
    simp [emitStep, hgs]

/-- C4 (amended): the ancestor walk consults only the handler list
registered under the dispatched event's own type, so a handler is invoked
only where and as it was registered for that exact type; in particular a
user handler never registered for the internal bookkeeping type never
receives such an event. -/
theorem claimC4_delivery_matches_registration (parent : ElemId → Option ElemId) (doc : Doc)
    (beh : HandlerId → HBeh) (gs : GState) (handled : Handled) (ev : GEvent) (fuel : Nat)
    (r : PHResult) (p : ElemId × HandlerId)
    (h : propagatedHandler parent doc beh gs handled ev fuel = some r) (hp : p ∈ r.log) :
    ∃ b hs, lookupA doc.bindings p.1 = some b ∧ lookupA b.handlers ev.type = some hs ∧ p.2 ∈ hs :=
  propagated_mem parent doc beh gs handled ev fuel r p h hp

/-- C5 (amended): calling `on` or `off` with a type string containing no
non-space token does not register or remove anything, but it is not a
silent no-op: `split` returns `null` and the `forEach` access throws a
`TypeError` before any registry mutation, so the binding is not returned. -/
theorem claimC5_empty_types_throw (b : Binding) (s : String) (h : HandlerId)
    (ho : Option HandlerId) (hs : split s = none) :
    onB b s h = Except.error JsErr.typeError ∧
      offB b s ho = Except.error JsErr.typeError := by
  constructor
  · rw [onB, hs]
  · rw [offB, hs]

/-- C6: construction with an explicit `preventDefault: false` fails with the
configuration error before the binding is attached to the element; with the
option absent (either no options object or no `preventDefault` property),
`true`, or a pointer-type tag, construction succeeds and attaches a fresh
binding. -/
theorem claimC6_preventDefault_false_rejected (doc : Doc) (e : ElemId) :
    propagatingConstruct doc e (some { preventDefault := some PD.fls }) =
      Except.error JsErr.configError ∧
    propagatingConstruct doc e none = Except.ok (setBinding doc e Binding.empty) ∧
    propagatingConstruct doc e (some { preventDefault := none }) =
      Except.ok (setBinding doc e Binding.empty) ∧
    propagatingConstruct doc e (some { preventDefault := some PD.tru }) =
      Except.ok (setBinding doc e Binding.empty) ∧
    (∀ s : String, propagatingConstruct doc e (some { preventDefault := some (PD.pointer s) }) =
      Except.ok (setBinding doc e Binding.empty)) :=
  ⟨rfl, rfl, rfl, rfl, fun _ => rfl⟩

/-- C7: when `off` empties a type's handler list (removing the last matching
handler, or called without a handler), the trampoline is deregistered from
the recognizer and the type's entry deleted — that type is then absent from
both the registry and the trampoline registrations; when the filtered list
is non-empty the entry keeps exactly the surviving handlers in order and
the trampoline registrations are untouched; and a later `on` for that type
re-creates the entry and re-registers the trampoline. -/
theorem claimC7_off_empty_deregisters (b : Binding) (es : String) (t : EventType)
    (h : HandlerId) (hs : List HandlerId)
    (hsplit : split es = some [t])
    (hlk : lookupA b.handlers t = some hs) :
    lookupA (eraseA b.handlers t) t = none ∧
    t ∉ removeAll b.registered t ∧
    (hs.filter (fun x => decide (x ≠ h)) = [] →
      offB b es (some h) =
        Except.ok { handlers := eraseA b.handlers t, registered := removeAll b.registered t }) ∧
    (offB b es none =
      Except.ok { handlers := eraseA b.handlers t, registered := removeAll b.registered t }) ∧
    (hs.filter (fun x => decide (x ≠ h)) ≠ [] →
      offB b es (some h) =
        Except.ok { b with handlers := updateA b.handlers t (hs.filter (fun x => decide (x ≠ h))) }) ∧
    (∀ h2, onB { handlers := eraseA b.handlers t, registered := removeAll b.registered t } es h2 =
      Except.ok { handlers := eraseA b.handlers t ++ [(t, [h2])],
                  registered := removeAll b.registered t ++ [t] }) := by
  have hoff : ∀ ho, offB b es ho = Except.ok (off1 b t ho) := by
    intro ho
    rw [offB, hsplit]
    rfl
  have hon : ∀ (b2 : Binding) (h2 : HandlerId), onB b2 es h2 = Except.ok (on1 b2 t h2) := by
    intro b2 h2
    rw [onB, hsplit]
    rfl
  refine ⟨lookupA_eraseA _ _, not_mem_removeAll _ _, ?_, ?_, ?_, ?_⟩
  · intro hfil
    rw [hoff, off1, hlk]
    dsimp only
    rw [hfil]
    rfl
  · rw [hoff, off1, hlk]
    rfl
  · intro hfil
    rw [hoff, off1, hlk]
    dsimp only
    rw [if_pos (by exact List.length_pos.mpr hfil)]
  · intro h2
    rw [hon, on1, lookupA_eraseA]

/-- C8: destroying the binding on element `e` removes the back-reference so
no lookup finds a binding at `e` any more, leaves the binding of every
other element exactly as it was, and any subsequent ancestor walk — in
particular one passing through `e` — invokes no handler at `e`. -/
theorem claimC8_destroy_isolates (doc : Doc) (e : ElemId) :
    lookupA (destroyHammer doc e).bindings e = none ∧
    (∀ e2, e2 ≠ e → lookupA (destroyHammer doc e).bindings e2 = lookupA doc.bindings e2) ∧
    (∀ (parent : ElemId → Option ElemId) (beh : HandlerId → HBeh) (t : EventType)
        (start : Option ElemId) (stopped : Bool) (fuel : Nat)
        (res : List (ElemId × HandlerId) × Bool) (h : HandlerId),
      walk parent (destroyHammer doc e) beh t start stopped fuel = some res →
      (e, h) ∉ res.1) := by
  refine ⟨lookupA_eraseA _ _, ?_, ?_⟩
  · intro e2 hne
    exact lookupA_eraseA_ne doc.bindings e e2 hne
  · intro parent beh t start stopped fuel res h hw hmem
    obtain ⟨b, bhs, hb, _, _⟩ :=
      walk_mem parent (destroyHammer doc e) beh t fuel start stopped res (e, h) hw hmem
    have hb2 : lookupA (eraseA doc.bindings e) e = some b := hb
    rw [lookupA_eraseA] at hb2
    exact absurd hb2 (by simp)

/-- C9: `off(type, handler)` removes every identical occurrence of the
handler from that type's list, so no list the registry still holds for that
type contains it, and no subsequent dispatch of an event of that type ever
invokes that handler on an element carrying the resulting binding. -/
theorem claimC9_off_removes_all (b : Binding) (es : String) (t : EventType) (h : HandlerId)
    (b2 : Binding) (hsplit : split es = some [t])
    (hoff : offB b es (some h) = Except.ok b2) :
    (∀ hs2, lookupA b2.handlers t = some hs2 → h ∉ hs2) ∧
    (∀ (parent : ElemId → Option ElemId) (doc : Doc) (beh : HandlerId → HBeh)
        (gs : GState) (handled : Handled) (ev : GEvent) (fuel : Nat) (r : PHResult) (e : ElemId),
      lookupA doc.bindings e = some b2 → ev.type = t →
      propagatedHandler parent doc beh gs handled ev fuel = some r →
      (e, h) ∉ r.log) := by
  have hb2 : b2 = off1 b t (some h) := by
    rw [offB, hsplit] at hoff
    simpa using hoff.symm
  have hnot : ∀ hs2, lookupA b2.handlers t = some hs2 → h ∉ hs2 := by
    intro hs2 hlk hmem
    rw [hb2, off1] at hlk
    cases hbh : lookupA b.handlers t with
    | none =>
      rw [hbh] at hlk
      dsimp only at hlk
      rw [hbh] at hlk
      exact absurd hlk (by simp)
    | some hhs =>
      rw [hbh] at hlk
      dsimp only at hlk
      by_cases hlen : (hhs.filter (fun x => decide (x ≠ h))).length > 0
      · rw [if_pos hlen] at hlk
        dsimp only at hlk
        rw [lookupA_updateA, hbh] at hlk
        have hfil : hs2 = hhs.filter (fun x => decide (x ≠ h)) := by simpa using hlk.symm
        subst hfil
        simp at hmem
      · rw [if_neg hlen] at hlk
        dsimp only at hlk
        rw [lookupA_eraseA] at hlk
        exact absurd hlk (by simp)
  refine ⟨hnot, ?_⟩
  intro parent doc beh gs handled ev fuel r e hdoc hty hph hmem
  obtain ⟨b3, hs3, hb3, hhs3, hmem3⟩ :=
    propagated_mem parent doc beh gs handled ev fuel r (e, h) hph hmem
  have hb3e : lookupA doc.bindings e = some b3 := hb3
  rw [hdoc] at hb3e
  have hbe : b3 = b2 := by simpa using hb3e.symm
  subst hbe
  rw [hty] at hhs3
  exact hnot hs3 hhs3 hmem3

/-- C10: for a non-internal type the dedup mark is written before any user
handler runs, so even when a handler throws and aborts the walk (the event
result records the throw) the (native event, type) pair stays marked, and
any later trampoline invocation for that pair returns immediately without
invoking a handler — the handlers skipped by the exception are never
retried. -/
theorem claimC10_mark_persists_on_throw (parent : ElemId → Option ElemId) (doc : Doc)
    (beh : HandlerId → HBeh) (gs : GState) (handled : Handled) (ev : GEvent) (fuel : Nat)
    (r : PHResult)
    (hne : ev.type ≠ hammerInput)
    (h : propagatedHandler parent doc beh gs handled ev fuel = some r)
    (_hthrew : r.threw = true) :
    isHandled r.handled ev.srcEvent ev.type = true ∧
    (∀ (p2 : ElemId → Option ElemId) (d2 : Doc) (b2 : HandlerId → HBeh) (g2 : GState)
        (ev2 : GEvent) (fuel2 : Nat), ev2.srcEvent = ev.srcEvent → ev2.type = ev.type →
      propagatedHandler p2 d2 b2 g2 r.handled ev2 fuel2 =
        some { handled := r.handled, attachedFirstTarget := none, log := [], threw := false }) := by
  obtain ⟨hmark, _⟩ := propagated_marks parent doc beh gs handled ev fuel r hne h
  refine ⟨hmark, ?_⟩
  intro p2 d2 b2 g2 ev2 fuel2 hsrc hty
  apply propagated_already_handled
  · rw [hty]; exact hne
  · rw [hsrc, hty]; exact hmark

/-- A user-visible gesture type used by the concrete test scenarios. -/
def tap : EventType := "tap"

/-- A two-element chain: element 0 is the child of element 1, the root. -/
def parentW : ElemId → Option ElemId := fun e => if e = 0 then some 1 else none

/-- A document with no parent relation at all. -/
def parent0 : ElemId → Option ElemId := fun _ => none

/-- Handler 1 calls `stopPropagation()`; every other handler returns
normally. -/
def behW : HandlerId → HBeh := fun h => if h = 1 then HBeh.ret true else HBeh.ret false

/-- Every handler returns normally without stopping. -/
def beh0 : HandlerId → HBeh := fun _ => HBeh.ret false

/-- Handler 2 throws; every other handler returns normally. -/
def behT : HandlerId → HBeh := fun h => if h = 2 then HBeh.throw else HBeh.ret false

/-- Child element 0 has a tap handler 5; parent element 1 has tap handlers
1 (a stopper) and 9, in that registration order. -/
def docW : Doc :=
  { bindings := [(0, { handlers := [(tap, [5])], registered := [tap] }),
                 (1, { handlers := [(tap, [1, 9])], registered := [tap] })] }

/-- A gesture is in progress and began at element 0. -/
def gsW : GState := { firstTarget := some 0, processing := true }

/-- A tap gesture event over native event 0. -/
def evW : GEvent :=
  { type := tap, target := 0, srcEvent := 0, isFirst := false, isFinal := false,
    pointerType := "touch" }

/-- The outcome of dispatching `evW` in `docW` from origin 0: both the
child handler 5 and the stopping parent handler 1 run, handler 9 does not. -/
def rW : PHResult :=
  { handled := [(0, [tap])], attachedFirstTarget := some (some 0),
    log := [(0, 5), (1, 1)], threw := false }

/-- The first phase of a gesture starting at element 3. -/
def ev0W : GEvent :=
  { type := tap, target := 3, srcEvent := 0, isFirst := true, isFinal := false,
    pointerType := "touch" }

/-- A mid-gesture phase over a different target element 4. -/
def evMidW : GEvent :=
  { type := tap, target := 4, srcEvent := 1, isFirst := false, isFinal := false,
    pointerType := "touch" }

/-- Mid-gesture traffic: one bookkeeping event with a drifted target and
one `emit` call. -/
def opsW : List GOp := [GOp.input evMidW, GOp.emitOp evW]

/-- The binding produced by registering handler 7 for the internal
bookkeeping type via `on`. -/
def bCex : Binding := { handlers := [(hammerInput, [7])], registered := [hammerInput] }

/-- A document whose element 0 carries `bCex`. -/
def docCex : Doc := { bindings := [(0, bCex)] }

/-- An event of the internal bookkeeping type itself. -/
def evCex : GEvent :=
  { type := hammerInput, target := 0, srcEvent := 0, isFirst := false, isFinal := false,
    pointerType := "touch" }

/-- The outcome of dispatching the internal-type event `evCex` in `docCex`:
user handler 7 is invoked. -/
def rCex : PHResult :=
  { handled := [], attachedFirstTarget := some (some 0), log := [(0, 7)], threw := false }

/-- A binding whose tap list holds the same handler 5 twice. -/
def bW7 : Binding := { handlers := [(tap, [5, 5])], registered := [tap] }

/-- A binding whose tap list holds handler 5 twice around handler 7. -/
def bW9 : Binding := { handlers := [(tap, [5, 7, 5])], registered := [tap] }

/-- The binding left after `off('tap', 5)` on `bW9`: only handler 7
survives and the trampoline registration is kept. -/
def b2W9 : Binding := { handlers := [(tap, [7])], registered := [tap] }

/-- A document whose element 0 carries `b2W9`. -/
def doc9 : Doc := { bindings := [(0, b2W9)] }

/-- The outcome of dispatching `evW` in `doc9`: only handler 7 runs. -/
def r9W : PHResult :=
  { handled := [(0, [tap])], attachedFirstTarget := some (some 0),
    log := [(0, 7)], threw := false }

/-- A document whose element 0 carries the throwing tap handler 2. -/
def docT : Doc := { bindings := [(0, { handlers := [(tap, [2])], registered := [tap] })] }

/-- The outcome of dispatching `evW` in `docT`: handler 2 is invoked and
throws, aborting the walk, with the dedup mark already written. -/
def rT : PHResult :=
  { handled := [(0, [tap])], attachedFirstTarget := some (some 0),
    log := [(0, 2)], threw := true }

/-- C1 witness: the concrete two-element scenario of the specification —
child handler 5 runs first, the stopping parent handler 1 runs next and
parent handler 9 is never invoked. -/
theorem claimC1_dispatch_ancestor_order_w :
    propagatedHandler parentW docW behW gsW [] evW 3 =
      some { handled := markHandled [] evW.srcEvent evW.type,
             attachedFirstTarget := some gsW.firstTarget,
             log := cutAtStop behW (chainHandlers docW evW.type [0, 1]),
             threw := false } :=
  claimC1_dispatch_ancestor_order parentW docW behW gsW [] evW 3 [0, 1]
    (by decide) (by decide) (by decide)
    (by intro h; unfold behW; split <;> decide)

/-- C2 witness: after the pass recorded in `rW`, a second trampoline
invocation for the same native event and type returns immediately with an
empty log. -/
theorem claimC2_dedup_single_pass_w :
    propagatedHandler parentW docW behW gsW rW.handled evW 2 =
      some { handled := rW.handled, attachedFirstTarget := none, log := [], threw := false } :=
  (claimC2_dedup_single_pass parentW parentW docW docW behW behW gsW gsW [] evW evW 3 2 rW
    (by decide) (by decide) rfl rfl).2

/-- C3 witness: after the first phase at element 3, the mid-gesture traffic
of `opsW` (including an input event targeting element 4) leaves
`_firstTarget` at element 3. -/
theorem claimC3_firstTarget_stable_w :
    (List.foldl (gstep (some PD.tru))
      (gstep (some PD.tru) { firstTarget := none, processing := false } (GOp.input ev0W))
      opsW).firstTarget = some ev0W.target :=
  (claimC3_firstTarget_stable (some PD.tru) { firstTarget := none, processing := false }
    ev0W opsW (by decide) (by decide)
    (by
      intro ev hm
      simp only [opsW, List.mem_cons, List.not_mem_nil, or_false] at hm
      rcases hm with hm | hm
      · injection hm with hm2
        subst hm2
        decide
      · exact GOp.noConfusion hm)).1

/-- C4 counterexample: registering handler 7 for the internal bookkeeping
type via `on` succeeds, and dispatching a `hammer.input` event then invokes
that user handler — refuting that no handler registered via `on` ever
receives an event of the internal type. -/
theorem claimC4_cex :
    onB Binding.empty hammerInput 7 = Except.ok bCex ∧
    (propagatedHandler parent0 docCex beh0 gsW [] evCex 1).map PHResult.log =
      some [(0, 7)] := by decide

/-- C4 witness: in the `docCex` dispatch the invoked pair (0, 7) is indeed
registered at element 0 under the dispatched event's own type. -/
theorem claimC4_delivery_matches_registration_w :
    ∃ b hs, lookupA docCex.bindings 0 = some b ∧
      lookupA b.handlers evCex.type = some hs ∧ 7 ∈ hs :=
  claimC4_delivery_matches_registration parent0 docCex beh0 gsW [] evCex 1 rCex (0, 7)
    (by decide) (by decide)

/-- C5 counterexample: calling `on` with the empty type string raises a
TypeError instead of being a silent no-op that returns the binding. -/
theorem claimC5_cex : onB Binding.empty ("") 5 = Except.error JsErr.typeError := by decide

/-- C5 witness: both `on` and `off` with an all-space type string throw the
TypeError. -/
theorem claimC5_empty_types_throw_w :
    onB Binding.empty (" ") 5 = Except.error JsErr.typeError ∧
      offB Binding.empty (" ") none = Except.error JsErr.typeError :=
  claimC5_empty_types_throw Binding.empty (" ") 5 none (by decide)

/-- C7 witness: removing handler 5 — registered twice — from `bW7` empties
the tap list, deletes the entry and deregisters the trampoline. -/
theorem claimC7_off_empty_deregisters_w :
    offB bW7 tap (some 5) =
      Except.ok { handlers := eraseA bW7.handlers tap,
                  registered := removeAll bW7.registered tap } :=
  (claimC7_off_empty_deregisters bW7 tap tap 5 [5, 5] (by decide) (by decide)).2.2.1 (by decide)

/-- C8 witness: destroying the binding of element 0 leaves the binding
lookup of element 1 unchanged. -/
theorem claimC8_destroy_isolates_w :
    lookupA (destroyHammer docW 0).bindings 1 = lookupA docW.bindings 1 :=
  (claimC8_destroy_isolates docW 0).2.1 1 (by decide)

/-- C9 witness: after `off('tap', 5)` removed both occurrences of handler 5
from `bW9`, the dispatch recorded in `r9W` does not invoke handler 5 at
element 0. -/
theorem claimC9_off_removes_all_w : (0, 5) ∉ r9W.log :=
  (claimC9_off_removes_all bW9 tap tap 5 b2W9 (by decide) (by decide)).2
    parent0 doc9 beh0 gsW [] evW 1 r9W 0 (by decide) (by decide) (by decide)

/-- C10 witness: after the aborted pass recorded in `rT` (handler 2 threw),
a second trampoline invocation for the same native event and type returns
immediately with an empty log. -/
theorem claimC10_mark_persists_on_throw_w :
    propagatedHandler parent0 docT behT gsW rT.handled evW 1 =
      some { handled := rT.handled, attachedFirstTarget := none, log := [], threw := false } :=
  (claimC10_mark_persists_on_throw parent0 docT behT gsW [] evW 1 rT
    (by decide) (by decide) (by decide)).2 parent0 docT behT gsW evW 1 rfl rfl

end Propagating
